import Mathlib

/-!
Verification development for the `icanhazlb-api` service.

The repository is a small Go HTTP service: on each request it extracts the
hostname from the request's Host header, derives an embedded IPv4 address from
it, builds an `IcanhazlbService` custom-resource document and POSTs it to the
Kubernetes API server, answering the caller with the resolved
`{ipAddress, hostname}` pair.

This file shallowly embeds the two variants of the program found in the
sources:
  * the `main.go` variant (direct `net.ParseIP` on the whole hostname, raw
    names), and
  * the variant in `unnamed/part_002` (regex-based embedded-pattern resolver
    `parseIPAddressFromHostname`, service-friendly sanitization of the
    hostname and address before document construction).

Strings are modelled by Lean `String`/`List Char`; the Go regexp engine's
leftmost-first (Perl-style) matching of the concrete pattern
`((\d{1,3}\.){3}\d{1,3}|(\d{1,3}-){3}\d{1,3}|(\d{1,3}_){3}\d{1,3}|(\d{1,3}[-_.]){3}\d{1,3})`
is embedded as an explicit backtracking matcher specialized to that pattern;
`net.ParseIP`'s dotted-quad branch (Go >= 1.17: fields 0..255, no leading
zeros) is embedded as `goParseIPv4Chars`.
-/

namespace Icanhazlb

/-- ASCII digit test: the regexp class `\d` (RE2 matches ASCII `[0-9]`). -/
def isDigitChar (c : Char) : Bool := 48 ≤ c.toNat && c.toNat ≤ 57

/-- Delimiter class of the first regex alternative `(\d{1,3}\.){3}\d{1,3}`. -/
def isDotChar (c : Char) : Bool := c == '.'

/-- Delimiter class of the second regex alternative `(\d{1,3}-){3}\d{1,3}`. -/
def isDashChar (c : Char) : Bool := c == '-'

/-- Delimiter class of the third regex alternative `(\d{1,3}_){3}\d{1,3}`. -/
def isUnderChar (c : Char) : Bool := c == '_'

/-- Delimiter class `[-_.]` of the fourth regex alternative. -/
def isAnyDelimChar (c : Char) : Bool := c == '.' || c == '-' || c == '_'

/-- The candidate splits of a greedy `\d{1,3}` at the head of the input, in
the order a backtracking engine tries them: three digits first, then two,
then one.  Each candidate is the consumed digit run paired with the rest. -/
def digitSplits : List Char → List (List Char × List Char)
  | a :: b :: c :: rest =>
    if isDigitChar a then
      if isDigitChar b then
        if isDigitChar c then
          [([a, b, c], rest), ([a, b], c :: rest), ([a], b :: c :: rest)]
        else [([a, b], c :: rest), ([a], b :: c :: rest)]
      else [([a], b :: c :: rest)]
    else []
  | [a, b] =>
    if isDigitChar a then
      if isDigitChar b then [([a, b], []), ([a], [b])] else [([a], [b])]
    else []
  | [a] => if isDigitChar a then [([a], [])] else []
  | [] => []

/-- First `some` in a list of options: the backtracking engine's
"first alternative that succeeds wins" rule. -/
def firstSome : List (Option α) → Option α
  | [] => none
  | some a :: _ => some a
  | none :: rest => firstSome rest

/-- Anchored match of `\d{1,3} (D \d{1,3}){k}` at the head of the input,
with leftmost-first (greedy, backtracking) semantics; `D` is the delimiter
class of the regex alternative.  Returns the matched characters. -/
def matchOcts (D : Char → Bool) : Nat → List Char → Option (List Char)
  | 0, l => (digitSplits l).head?.map fun p => p.1
  | k + 1, l =>
    firstSome <| (digitSplits l).map fun p =>
      match p.2 with
      | [] => none
      | d :: rest =>
        if D d then (matchOcts D k rest).map fun t => p.1 ++ d :: t
        else none

/-- Anchored match of the whole alternation
`(\d{1,3}\.){3}\d{1,3}|(\d{1,3}-){3}\d{1,3}|(\d{1,3}_){3}\d{1,3}|(\d{1,3}[-_.]){3}\d{1,3}`
at the head of the input: alternatives are tried in source order
(leftmost-first semantics of Go's non-POSIX regexp engine). -/
def matchAt (l : List Char) : Option (List Char) :=
  match matchOcts isDotChar 3 l with
  | some m => some m
  | none =>
    match matchOcts isDashChar 3 l with
    | some m => some m
    | none =>
      match matchOcts isUnderChar 3 l with
      | some m => some m
      | none => matchOcts isAnyDelimChar 3 l

/-- `regexp.FindString`: scan start positions left to right and return the
match at the first position where one exists (`none` plays the role of
`FindString`'s empty-string result; the pattern cannot match the empty
string). -/
def findMatchAux : List Char → Option (List Char)
  | [] => none
  | c :: rest =>
    match matchAt (c :: rest) with
    | some m => some m
    | none => findMatchAux rest

/-- The rune mapping of `strings.Map` in `parseIPAddressFromHostname`:
`-`, `_` and `.` become `.`; everything else is kept. -/
def normChar (c : Char) : Char :=
  if c == '-' || c == '_' || c == '.' then '.' else c

/-- `net.dtoi` (Go standard library): read a decimal prefix, returning the
value, the number of digits consumed, and the rest; fails when no digit is
present or the running value reaches `big = 0xFFFFFF`. -/
def goDtoiAux : List Char → Nat → Nat → Option (Nat × Nat × List Char)
  | [], n, i => if i == 0 then none else some (n, i, [])
  | c :: rest, n, i =>
    if isDigitChar c then
      let n2 := n * 10 + (c.toNat - 48)
      if 16777215 ≤ n2 then none else goDtoiAux rest n2 (i + 1)
    else if i == 0 then none else some (n, i, c :: rest)

/-- Entry point of `net.dtoi`. -/
def goDtoi (l : List Char) : Option (Nat × Nat × List Char) := goDtoiAux l 0 0

/-- One field step of `net.parseIPv4` (Go >= 1.17): a decimal field must
parse, be at most `255`, and must not have a leading zero. -/
def parseField (l : List Char) : Option (Nat × List Char) :=
  match goDtoi l with
  | none => none
  | some (n, cnt, rest) =>
    if 255 < n then none
    else if decide (1 < cnt) && (l.head? == some '0') then none
    else some (n, rest)

/-- An IPv4 address as four octet values (each `0..255` when produced by
`goParseIPv4Chars`). -/
structure IPv4Addr where
  o1 : Nat
  o2 : Nat
  o3 : Nat
  o4 : Nat
deriving DecidableEq

/-- `net.parseIPv4`: four dot-separated decimal fields, nothing left over.
This is the branch of `net.ParseIP` exercised by the program: the inputs fed
to it here never contain `:`, so the IPv6 branch is unreachable, and a
successful dotted-quad parse always satisfies the subsequent
`To4().Equal(parsedIP)` check in the source. -/
def goParseIPv4Chars (l : List Char) : Option IPv4Addr :=
  match parseField l with
  | none => none
  | some (a, r) =>
    match r with
    | '.' :: r =>
      match parseField r with
      | none => none
      | some (b, r) =>
        match r with
        | '.' :: r =>
          match parseField r with
          | none => none
          | some (c, r) =>
            match r with
            | '.' :: r =>
              match parseField r with
              | none => none
              | some (d, r) => if r.isEmpty then some ⟨a, b, c, d⟩ else none
            | _ => none
        | _ => none
    | _ => none

/-- Canonical decimal rendering of one octet value (`0 ≤ n ≤ 999`): the
digit sequence `net.IP.String` prints for a byte value. -/
def octChars (n : Nat) : List Char :=
  if n < 10 then [Nat.digitChar n]
  else if n < 100 then [Nat.digitChar (n / 10), Nat.digitChar (n % 10)]
  else [Nat.digitChar (n / 100), Nat.digitChar (n / 10 % 10), Nat.digitChar (n % 10)]

/-- `net.IP.String` on a 4-byte address: dotted canonical decimals. -/
def renderIPv4Chars (q : IPv4Addr) : List Char :=
  octChars q.o1 ++ ('.' :: (octChars q.o2 ++ ('.' :: (octChars q.o3 ++ ('.' :: octChars q.o4)))))

/-- Outcome of the embedded-pattern resolver, distinguishing the two
diagnostic branches of `parseIPAddressFromHostname` in `unnamed/part_002`:
`addressNotFound` corresponds to the `match == ""` branch ("Failed to parse
IP address"), `addressInvalid` to the failed `net.ParseIP`/`To4` validation
of a matched pattern ("Failed to parse IPv4 address"). -/
inductive ResolveOutcome where
  | found (address : String)
  | addressInvalid
  | addressNotFound
deriving DecidableEq

/-- `parseIPAddressFromHostname` (variant `unnamed/part_002`), with the two
error branches kept distinct: find the leftmost-first regex match, normalize
the delimiters to `.` via `strings.Map`, validate with `net.ParseIP`, and
render the parsed address with `String()`. -/
def parseIPAddressOutcome (hostname : String) : ResolveOutcome :=
  match findMatchAux hostname.data with
  | some m =>
    match goParseIPv4Chars (m.map normChar) with
    | some q => .found (String.mk (renderIPv4Chars q))
    | none => .addressInvalid
  | none => .addressNotFound

/-- The string actually returned by `parseIPAddressFromHostname`
(`unnamed/part_002`): the rendered address on success, `""` on either
failure. -/
def parseIPAddressFromHostname (hostname : String) : String :=
  match parseIPAddressOutcome hostname with
  | .found address => address
  | _ => ""

/-- `parseIPAddressFromHostname` (variant `main.go`): `net.ParseIP` on the
whole hostname, `""` on failure, `ip.String()` on success.  The hostname
never contains `:` (the port is stripped beforehand), so only the
dotted-quad branch of `ParseIP` can succeed and `To4` never fails after a
successful parse. -/
def parseIPAddressDirect (hostname : String) : String :=
  match goParseIPv4Chars hostname.data with
  | some q => String.mk (renderIPv4Chars q)
  | none => ""

/-- `extractHostnameFromRequest`: `strings.SplitN(r.Host, ":", 2)[0]`, the
prefix of the Host header before the first `:`. -/
def extractHostnameFromRequest (host : String) : String :=
  String.mk (host.data.takeWhile fun c => c != ':')

/-- `strings.ReplaceAll(s, "_", "-")` (single-character pattern). -/
def underscoreToDash (s : String) : String :=
  String.mk (s.data.map fun c => if c == '_' then '-' else c)

/-- `strings.ReplaceAll(s, ".", "-")` (single-character pattern). -/
def dotToDash (s : String) : String :=
  String.mk (s.data.map fun c => if c == '.' then '-' else c)

/-! ## The `IcanhazlbService` document model

Mirrors the Go struct definitions.  Go `map[string]string` fields are
modelled as association lists (the source populates each with a single
literal entry); `intstr.FromInt(80)` becomes the number `80`. -/

structure IcanhazlbPort where
  name : String
  port : Nat
deriving DecidableEq

structure IcanhazlbEndpoint where
  addresses : List String
deriving DecidableEq

structure IcanhazlbEndpointSlices where
  name : String
  addressType : String
  ports : List IcanhazlbPort
  endpoints : List IcanhazlbEndpoint
  labels : List (String × String)
deriving DecidableEq

structure IcanhazlbServices where
  name : String
  type : String
  ipFamilies : List String
  ports : List IcanhazlbPort
  labels : List (String × String)
deriving DecidableEq

structure IcanhazlbBackendPort where
  number : Nat
deriving DecidableEq

structure IcanhazlbHTTPServiceBackend where
  name : String
  port : IcanhazlbBackendPort
deriving DecidableEq

structure IcanhazlbHTTPBackend where
  service : IcanhazlbHTTPServiceBackend
deriving DecidableEq

structure IcanhazlbHTTPPath where
  path : String
  pathType : String
  backend : IcanhazlbHTTPBackend
deriving DecidableEq

structure IcanhazlbHTTP where
  paths : List IcanhazlbHTTPPath
deriving DecidableEq

structure IcanhazlbIngressRule where
  host : String
  http : IcanhazlbHTTP
deriving DecidableEq

structure IcanhazlbIngresses where
  name : String
  annotations : List (String × String)
  ingressClassName : String
  rules : List IcanhazlbIngressRule
deriving DecidableEq

structure IcanhazlbServiceSpec where
  endpointSlices : IcanhazlbEndpointSlices
  services : IcanhazlbServices
  ingresses : IcanhazlbIngresses
deriving DecidableEq

/-- The full custom-resource document.  `name`/`namespaceName` are the
`ObjectMeta` name and namespace (`namespace` is a Lean keyword). -/
structure IcanhazlbService where
  apiVersion : String
  kind : String
  name : String
  namespaceName : String
  spec : IcanhazlbServiceSpec
deriving DecidableEq

/-- The document literal built by `createCRDInKubernetes` in
`unnamed/part_002` (arguments `ipAddress`, `hostname`, `svcFriendlyIp` as in
the source; the caller passes the sanitized hostname for `hostname`). -/
def createCRDDocument (ipAddress hostname svcFriendlyIp : String) : IcanhazlbService :=
  { apiVersion := "service.icanhazlb.com" ++ "/" ++ "v1alpha1"
    kind := "IcanhazlbService"
    name := "icanhazlb-" ++ svcFriendlyIp
    namespaceName := "default"
    spec :=
      { endpointSlices :=
          { name := "icanhazlb-" ++ svcFriendlyIp ++ "-svc"
            addressType := "IPv4"
            ports := [{ name := "http", port := 80 }]
            endpoints := [{ addresses := [ipAddress] }]
            labels := [("kubernetes.io/service-name", "icanhazlb-" ++ svcFriendlyIp ++ "-svc")] }
        services :=
          { name := "icanhazlb-" ++ svcFriendlyIp ++ "-svc"
            type := "ClusterIP"
            ipFamilies := ["IPv4"]
            ports := [{ name := "http", port := 80 }]
            labels := [("kubernetes.io/service-name", "icanhazlb-" ++ svcFriendlyIp ++ "-svc")] }
        ingresses :=
          { name := "icanhazlb-" ++ svcFriendlyIp ++ "-ing"
            annotations := [("nginx.ingress.kubernetes.io/upstream-vhost", "retro.adrenlinerush.net")]
            ingressClassName := "nginx"
            rules :=
              [{ host := hostname
                 http :=
                   { paths :=
                       [{ path := "/"
                          pathType := "ImplementationSpecific"
                          backend :=
                            { service :=
                                { name := "icanhazlb-" ++ svcFriendlyIp ++ "-svc"
                                  port := { number := 80 } } } }] } }] } } }

/-- The document literal built by `createCRDInKubernetes` in `main.go`
(arguments `ipAddress`, `hostname`): identical to the `part_002` literal
except every `svcFriendlyIp` occurrence reads `ipAddress`. -/
def createCRDDocumentMain (ipAddress hostname : String) : IcanhazlbService :=
  { apiVersion := "service.icanhazlb.com" ++ "/" ++ "v1alpha1"
    kind := "IcanhazlbService"
    name := "icanhazlb-" ++ ipAddress
    namespaceName := "default"
    spec :=
      { endpointSlices :=
          { name := "icanhazlb-" ++ ipAddress ++ "-svc"
            addressType := "IPv4"
            ports := [{ name := "http", port := 80 }]
            endpoints := [{ addresses := [ipAddress] }]
            labels := [("kubernetes.io/service-name", "icanhazlb-" ++ ipAddress ++ "-svc")] }
        services :=
          { name := "icanhazlb-" ++ ipAddress ++ "-svc"
            type := "ClusterIP"
            ipFamilies := ["IPv4"]
            ports := [{ name := "http", port := 80 }]
            labels := [("kubernetes.io/service-name", "icanhazlb-" ++ ipAddress ++ "-svc")] }
        ingresses :=
          { name := "icanhazlb-" ++ ipAddress ++ "-ing"
            annotations := [("nginx.ingress.kubernetes.io/upstream-vhost", "retro.adrenlinerush.net")]
            ingressClassName := "nginx"
            rules :=
              [{ host := hostname
                 http :=
                   { paths :=
                       [{ path := "/"
                          pathType := "ImplementationSpecific"
                          backend :=
                            { service :=
                                { name := "icanhazlb-" ++ ipAddress ++ "-svc"
                                  port := { number := 80 } } } }] } }] } } }

/-- The document the `part_002` request handler builds for an extracted
hostname: `ipAddress := parseIPAddressFromHostname hostname`,
`svcFriendlyHostname := strings.ReplaceAll(hostname, "_", "-")`,
`svcFriendlyIp := strings.ReplaceAll(ipAddress, ".", "-")` (handler lines of
`createHandler`).  Note the handler performs no error check on `ipAddress`
before building and submitting the document. -/
def handlerDocumentOf (hostname : String) : IcanhazlbService :=
  createCRDDocument (parseIPAddressFromHostname hostname)
    (underscoreToDash hostname)
    (dotToDash (parseIPAddressFromHostname hostname))

/-- The document built for a raw Host header value (port stripped first). -/
def handlerDocument (host : String) : IcanhazlbService :=
  handlerDocumentOf (extractHostnameFromRequest host)

/-- The resource names carried by a document: the object name, the three
sub-spec names, and the backend service names referenced from the ingress
paths. -/
def documentNames (s : IcanhazlbService) : List String × List (List String) :=
  ([s.name, s.spec.endpointSlices.name, s.spec.services.name, s.spec.ingresses.name],
    s.spec.ingresses.rules.map fun r => r.http.paths.map fun p => p.backend.service.name)

/-- The label and annotation values carried by a document. -/
def documentLabels (s : IcanhazlbService) :
    List (String × String) × List (String × String) × List (String × String) :=
  (s.spec.endpointSlices.labels, s.spec.services.labels, s.spec.ingresses.annotations)

/-- Body of the HTTP response returned to the caller: the JSON object
`{"ipAddress": ..., "hostname": ...}` written by `json.NewEncoder(w).Encode`
on success, or the plain-text message written by `http.Error` on failure. -/
inductive ResponseBody where
  | jsonPair (ipAddress hostname : String)
  | errorText (message : String)
deriving DecidableEq

/-- An HTTP response as seen by the caller of the endpoint. -/
structure HttpResponse where
  status : Nat
  contentType : String
  body : ResponseBody
deriving DecidableEq

/-- The `part_002` request handler for one request, with the
submission to the Kubernetes API server abstracted as a `submit` function
returning `none` on success and `some errMsg` on failure (the `error` result
of `createCRDInKubernetes`).  `http.Error` replies with status 500 and
content type `text/plain; charset=utf-8`; the success path sets
`application/json` and the default status 200. -/
def handleRequest (host : String) (submit : IcanhazlbService → Option String) :
    HttpResponse :=
  let hostname := extractHostnameFromRequest host
  let ipAddress := parseIPAddressFromHostname hostname
  match submit (handlerDocument host) with
  | some errMsg =>
      { status := 500
        contentType := "text/plain; charset=utf-8"
        body := .errorText ("Failed to create CRD: " ++ errMsg) }
  | none =>
      { status := 200
        contentType := "application/json"
        body := .jsonPair ipAddress hostname }

/-! ## Auxiliary definitions used by the statements -/

/-- Head-character digit test for a character list. -/
def headIsDigit : List Char → Bool
  | [] => false
  | c :: _ => isDigitChar c

/-- A digit run as the regex octet `\d{1,3}` consumes it: one to three
digit characters. -/
def isOctetRun (od : List Char) : Prop :=
  od.all isDigitChar = true ∧ 1 ≤ od.length ∧ od.length ≤ 3

/-- The character sequence of an embedded dotted-quad pattern: four octet
values rendered canonically, joined by three delimiter characters. -/
def patternChars (a b c d : Nat) (d1 d2 d3 : Char) : List Char :=
  octChars a ++ d1 :: (octChars b ++ d2 :: (octChars c ++ d3 :: octChars d))

/-- Does `needle` start the list `l`? (plain substring machinery used to
state that a hostname contains a pattern). -/
def startsWithList : List Char → List Char → Bool
  | [], _ => true
  | _ :: _, [] => false
  | a :: as, b :: bs => a == b && startsWithList as bs

/-- Does `needle` occur as a contiguous substring of `l`? -/
def occursIn (needle : List Char) : List Char → Bool
  | [] => startsWithList needle []
  | c :: rest => startsWithList needle (c :: rest) || occursIn needle rest

/-! ## Lemmas about the resolver embedding -/

theorem isDigitChar_digitChar {d : Nat} (h : d < 10) :
    isDigitChar (Nat.digitChar d) = true := by
  interval_cases d <;> decide

theorem digitChar_toNat {d : Nat} (h : d < 10) :
    (Nat.digitChar d).toNat = 48 + d := by
  interval_cases d <;> decide

theorem beq_false_of_digit {c e : Char} (h : isDigitChar c = true)
    (he : isDigitChar e = false) : (c == e) = false := by
  cases hce : c == e
  · rfl
  · rw [eq_of_beq hce] at h
    rw [h] at he
    exact absurd he (by simp)

theorem digitChar_beq_zero {d : Nat} (h1 : d < 10) (h2 : 1 ≤ d) :
    (Nat.digitChar d == '0') = false := by
  cases hce : Nat.digitChar d == '0'
  · rfl
  · have := congrArg Char.toNat (eq_of_beq hce)
    have h0 : '0'.toNat = 48 := rfl
    rw [digitChar_toNat h1, h0] at this
    omega

theorem normChar_digit {c : Char} (h : isDigitChar c = true) : normChar c = c := by
  unfold normChar
  rw [beq_false_of_digit h (by decide), beq_false_of_digit h (by decide),
    beq_false_of_digit h (by decide)]
  rfl

theorem map_normChar_digits {l : List Char} (h : l.all isDigitChar = true) :
    l.map normChar = l := by
  induction l with
  | nil => rfl
  | cons a t ih =>
    rw [List.all_cons, Bool.and_eq_true] at h
    rw [List.map_cons, normChar_digit h.1, ih h.2]

theorem goDtoiAux_stop {n i : Nat} (hi : i ≠ 0) {l : List Char}
    (hl : headIsDigit l = false) : goDtoiAux l n i = some (n, i, l) := by
  cases l with
  | nil =>
    unfold goDtoiAux
    simp [hi]
  | cons c r =>
    unfold goDtoiAux
    have hc : isDigitChar c = false := hl
    simp [hc, hi]

/-- `octChars n` is one, two or three digit characters for `n ≤ 999`, and
`net.dtoi` reads the value `n` back off it. -/
theorem goDtoi_oct {n : Nat} (hn : n ≤ 999) (rest : List Char)
    (hrest : headIsDigit rest = false) :
    goDtoi (octChars n ++ rest) = some (n, (octChars n).length, rest) := by
  unfold goDtoi octChars
  by_cases h10 : n < 10
  · have hd : isDigitChar (Nat.digitChar n) = true := isDigitChar_digitChar h10
    have ht : (Nat.digitChar n).toNat = 48 + n := digitChar_toNat h10
    simp only [if_pos h10, List.length_singleton, List.singleton_append]
    unfold goDtoiAux
    simp only [hd, if_true, ht]
    have h1 : ¬ (16777215 ≤ 0 * 10 + (48 + n - 48)) := by omega
    simp only [if_neg h1]
    have h2 : 0 * 10 + (48 + n - 48) = n := by omega
    rw [h2]
    exact goDtoiAux_stop (by omega) hrest
  · by_cases h100 : n < 100
    · have hq : n / 10 < 10 := by omega
      have hr : n % 10 < 10 := by omega
      have hd1 := isDigitChar_digitChar hq
      have hd2 := isDigitChar_digitChar hr
      have ht1 := digitChar_toNat hq
      have ht2 := digitChar_toNat hr
      simp only [if_neg h10, if_pos h100, List.length_cons, List.length_singleton,
        List.cons_append, List.singleton_append]
      unfold goDtoiAux
      simp only [hd1, if_true, ht1]
      have h1 : ¬ (16777215 ≤ 0 * 10 + (48 + n / 10 - 48)) := by omega
      simp only [if_neg h1]
      unfold goDtoiAux
      simp only [hd2, if_true, ht2]
      have h2 : ¬ (16777215 ≤ (0 * 10 + (48 + n / 10 - 48)) * 10 + (48 + n % 10 - 48)) := by
        omega
      simp only [if_neg h2]
      have h3 : (0 * 10 + (48 + n / 10 - 48)) * 10 + (48 + n % 10 - 48) = n := by omega
      rw [h3]
      exact goDtoiAux_stop (by omega) hrest
    · have hq : n / 100 < 10 := by omega
      have hm : n / 10 % 10 < 10 := by omega
      have hr : n % 10 < 10 := by omega
      have hd1 := isDigitChar_digitChar hq
      have hd2 := isDigitChar_digitChar hm
      have hd3 := isDigitChar_digitChar hr
      have ht1 := digitChar_toNat hq
      have ht2 := digitChar_toNat hm
      have ht3 := digitChar_toNat hr
      simp only [if_neg h10, if_neg h100, List.length_cons, List.length_singleton,
        List.cons_append, List.singleton_append]
      unfold goDtoiAux
      simp only [hd1, if_true, ht1]
      have h1 : ¬ (16777215 ≤ 0 * 10 + (48 + n / 100 - 48)) := by omega
      simp only [if_neg h1]
      unfold goDtoiAux
      simp only [hd2, if_true, ht2]
      have h2 : ¬ (16777215 ≤ (0 * 10 + (48 + n / 100 - 48)) * 10 + (48 + n / 10 % 10 - 48)) := by
        omega
      simp only [if_neg h2]
      unfold goDtoiAux
      simp only [hd3, if_true, ht3]
      have h3 : ¬ (16777215 ≤ ((0 * 10 + (48 + n / 100 - 48)) * 10 + (48 + n / 10 % 10 - 48)) * 10
          + (48 + n % 10 - 48)) := by omega
      simp only [if_neg h3]
      have h4 : ((0 * 10 + (48 + n / 100 - 48)) * 10 + (48 + n / 10 % 10 - 48)) * 10
          + (48 + n % 10 - 48) = n := by omega
      rw [h4]
      exact goDtoiAux_stop (by omega) hrest

theorem octChars_head_ne_zero {n : Nat} (hn : n ≤ 999) {rest : List Char} :
    1 < (octChars n).length → ((octChars n ++ rest).head? == some '0') = false := by
  intro hlen
  unfold octChars at hlen ⊢
  by_cases h10 : n < 10
  · simp only [if_pos h10, List.length_singleton] at hlen
    exact absurd hlen (by omega)
  · by_cases h100 : n < 100
    · simp only [if_neg h10, if_pos h100, List.cons_append, List.head?_cons, Option.some.injEq]
      have : (Nat.digitChar (n / 10) == '0') = false :=
        digitChar_beq_zero (by omega) (by omega)
      simpa using this
    · simp only [if_neg h10, if_neg h100, List.cons_append, List.head?_cons, Option.some.injEq]
      have : (Nat.digitChar (n / 100) == '0') = false :=
        digitChar_beq_zero (by omega) (by omega)
      simpa using this

/-- One `net.parseIPv4` field on a canonically rendered octet value: accepted
exactly for values up to `255`. -/
theorem parseField_oct {n : Nat} (hn : n ≤ 999) (rest : List Char)
    (hrest : headIsDigit rest = false) :
    parseField (octChars n ++ rest) = if 255 < n then none else some (n, rest) := by
  unfold parseField
  rw [goDtoi_oct hn rest hrest]
  by_cases h255 : 255 < n
  · simp [h255]
  · simp only [if_neg h255]
    by_cases hlen : 1 < (octChars n).length
    · rw [octChars_head_ne_zero hn hlen]
      simp
    · have : decide (1 < (octChars n).length) = false := by simpa using hlen
      rw [this]
      simp

/-- `net.parseIPv4` on four canonically rendered octet values joined by
dots: succeeds exactly when every value is at most `255`. -/
theorem goParseIPv4_octs {a b c d : Nat}
    (ha : a ≤ 999) (hb : b ≤ 999) (hc : c ≤ 999) (hd : d ≤ 999) :
    goParseIPv4Chars
        (octChars a ++ ('.' :: (octChars b ++ ('.' :: (octChars c ++ ('.' :: octChars d)))))) =
      if 255 < a ∨ 255 < b ∨ 255 < c ∨ 255 < d then none
      else some ⟨a, b, c, d⟩ := by
  unfold goParseIPv4Chars
  rw [parseField_oct ha ('.' :: (octChars b ++ ('.' :: (octChars c ++ ('.' :: octChars d))))) rfl]
  by_cases ha' : 255 < a
  · simp [ha']
  · simp only [if_neg ha']
    rw [parseField_oct hb ('.' :: (octChars c ++ ('.' :: octChars d))) rfl]
    by_cases hb' : 255 < b
    · simp [ha', hb']
    · simp only [if_neg hb']
      rw [parseField_oct hc ('.' :: octChars d) rfl]
      by_cases hc' : 255 < c
      · simp [ha', hb', hc']
      · simp only [if_neg hc']
        rw [← List.append_nil (octChars d), parseField_oct hd [] rfl]
        by_cases hd' : 255 < d
        · simp [ha', hb', hc', hd']
        · simp only [if_neg hd']
          simp [ha', hb', hc', hd']

theorem parseField_le {l : List Char} {n : Nat} {rest : List Char}
    (h : parseField l = some (n, rest)) : n ≤ 255 := by
  unfold parseField at h
  split at h
  · exact Option.noConfusion h
  · rename_i m cnt r heq
    split at h
    · exact Option.noConfusion h
    · split at h
      · exact Option.noConfusion h
      · rename_i hm hz
        have hmn : (m, r) = (n, rest) := Option.some.inj h
        have : m = n := congrArg Prod.fst hmn
        omega

theorem goParseIPv4_le {l : List Char} {q : IPv4Addr}
    (h : goParseIPv4Chars l = some q) :
    q.o1 ≤ 255 ∧ q.o2 ≤ 255 ∧ q.o3 ≤ 255 ∧ q.o4 ≤ 255 := by
  unfold goParseIPv4Chars at h
  repeat' split at h
  all_goals cases h
  rename_i x3 a r6 r5 heq3 x2 b r4 r3 heq2 x1 c r2 r1 heq1 x0 d r0 heq0 hemp
  exact ⟨parseField_le heq3, parseField_le heq2, parseField_le heq1, parseField_le heq0⟩

/-- Rendering a parsed address and parsing the rendering again yields the
same address: the round-trip property of canonical dotted-decimal form. -/
theorem goParseIPv4_render {q : IPv4Addr}
    (h1 : q.o1 ≤ 255) (h2 : q.o2 ≤ 255) (h3 : q.o3 ≤ 255) (h4 : q.o4 ≤ 255) :
    goParseIPv4Chars (renderIPv4Chars q) = some q := by
  have h := goParseIPv4_octs (show q.o1 ≤ 999 by omega) (show q.o2 ≤ 999 by omega)
    (show q.o3 ≤ 999 by omega) (show q.o4 ≤ 999 by omega)
  rw [if_neg (by omega)] at h
  rw [renderIPv4Chars, h]

theorem octChars_isOctetRun {n : Nat} (hn : n ≤ 999) : isOctetRun (octChars n) := by
  unfold octChars isOctetRun
  by_cases h10 : n < 10
  · simp [if_pos h10, isDigitChar_digitChar h10]
  · by_cases h100 : n < 100
    · simp [if_neg h10, if_pos h100, isDigitChar_digitChar (show n / 10 < 10 by omega),
        isDigitChar_digitChar (show n % 10 < 10 by omega)]
    · simp [if_neg h10, if_neg h100, isDigitChar_digitChar (show n / 100 < 10 by omega),
        isDigitChar_digitChar (show n / 10 % 10 < 10 by omega),
        isDigitChar_digitChar (show n % 10 < 10 by omega)]

/-- The greedy `\d{1,3}` at the head of `od ++ rest` (octet run `od`, rest
not starting with a digit) offers `od` as its first candidate. -/
theorem matchOcts_zero (D : Char → Bool) {od : List Char} (hod : isOctetRun od)
    {rest : List Char} (hrest : headIsDigit rest = false) :
    matchOcts D 0 (od ++ rest) = some od := by
  obtain ⟨hall, hl1, hl3⟩ := hod
  rcases od with _ | ⟨a, _ | ⟨b, _ | ⟨c, _ | ⟨e, t⟩⟩⟩⟩
  · simp at hl1
  · simp only [List.all_cons, List.all_nil, Bool.and_true, Bool.and_eq_true] at hall
    rcases rest with _ | ⟨d, _ | ⟨e, rs⟩⟩
    · simp [matchOcts, digitSplits, hall]
    · have hd : isDigitChar d = false := hrest
      simp [matchOcts, digitSplits, hall, hd]
    · have hd : isDigitChar d = false := hrest
      simp [matchOcts, digitSplits, hall, hd]
  · simp only [List.all_cons, List.all_nil, Bool.and_true, Bool.and_eq_true] at hall
    rcases rest with _ | ⟨d, rs⟩
    · simp [matchOcts, digitSplits, hall.1, hall.2]
    · have hd : isDigitChar d = false := hrest
      simp [matchOcts, digitSplits, hall.1, hall.2, hd]
  · simp only [List.all_cons, List.all_nil, Bool.and_true, Bool.and_eq_true] at hall
    simp [matchOcts, digitSplits, hall.1, hall.2.1, hall.2.2]
  · simp at hl3

/-- Happy path of one octet-plus-delimiter step of the quad pattern: when
the delimiter is accepted and the tail matches, the greedy first candidate
wins and the step consumes exactly the octet run and the delimiter. -/
theorem matchOcts_succ_some (D : Char → Bool) (k : Nat) {od : List Char}
    (hod : isOctetRun od) {d : Char} (hd : isDigitChar d = false) (hD : D d = true)
    {rest m : List Char} (hrec : matchOcts D k rest = some m) :
    matchOcts D (k + 1) (od ++ d :: rest) = some (od ++ d :: m) := by
  obtain ⟨hall, hl1, hl3⟩ := hod
  rcases od with _ | ⟨a, _ | ⟨b, _ | ⟨c, _ | ⟨e, t⟩⟩⟩⟩
  · simp at hl1
  · simp only [List.all_cons, List.all_nil, Bool.and_true, Bool.and_eq_true] at hall
    rcases rest with _ | ⟨f, rs⟩
    · simp [matchOcts, digitSplits, hall, hd, hD, firstSome, hrec]
    · simp [matchOcts, digitSplits, hall, hd, hD, firstSome, hrec]
  · simp only [List.all_cons, List.all_nil, Bool.and_true, Bool.and_eq_true] at hall
    simp [matchOcts, digitSplits, hall.1, hall.2, hd, hD, firstSome, hrec]
  · simp only [List.all_cons, List.all_nil, Bool.and_true, Bool.and_eq_true] at hall
    simp [matchOcts, digitSplits, hall.1, hall.2.1, hall.2.2, hd, hD, firstSome, hrec]
  · simp at hl3

/-- Failure of one octet-plus-delimiter step: when the delimiter class
rejects every digit, and either the delimiter is rejected or the tail match
fails, every backtracking candidate fails. -/
theorem matchOcts_succ_none (D : Char → Bool)
    (hDdig : ∀ c, isDigitChar c = true → D c = false) (k : Nat) {od : List Char}
    (hall : od.all isDigitChar = true) (hl3 : od.length ≤ 3) {d : Char}
    (hd : isDigitChar d = false) {rest : List Char}
    (hfail : D d = false ∨ matchOcts D k rest = none) :
    matchOcts D (k + 1) (od ++ d :: rest) = none := by
  have hcand : ∀ f : List Char → List Char,
      (if D d then (matchOcts D k rest).map f else none) = none := by
    intro f
    rcases hfail with hf | hf
    · simp [hf]
    · by_cases hDd : D d = true
      · simp [hDd, hf]
      · simp [Bool.of_not_eq_true hDd]
  rcases od with _ | ⟨a, _ | ⟨b, _ | ⟨c, _ | ⟨e, t⟩⟩⟩⟩
  · rcases rest with _ | ⟨f, _ | ⟨g, rs⟩⟩ <;> simp [matchOcts, digitSplits, hd, firstSome]
  · simp only [List.all_cons, List.all_nil, Bool.and_true, Bool.and_eq_true] at hall
    rcases rest with _ | ⟨f, rs⟩ <;>
    · simp only [List.cons_append, List.nil_append, matchOcts, digitSplits, hall, hd,
        if_true, if_false, Bool.false_eq_true, List.map_cons, List.map_nil]
      rw [hcand fun t => a :: d :: t]
      simp [firstSome]
  · simp only [List.all_cons, List.all_nil, Bool.and_true, Bool.and_eq_true] at hall
    have hb : D b = false := hDdig b hall.2
    simp only [List.cons_append, List.nil_append, matchOcts, digitSplits, hall.1, hall.2,
      hd, if_true, if_false, Bool.false_eq_true, List.map_cons, List.map_nil, hb]
    rw [hcand fun t => a :: b :: d :: t]
    simp [firstSome, hb]
  · simp only [List.all_cons, List.all_nil, Bool.and_true, Bool.and_eq_true] at hall
    have hb : D b = false := hDdig b hall.2.1
    have hc : D c = false := hDdig c hall.2.2
    simp only [List.cons_append, List.nil_append, matchOcts, digitSplits, hall.1, hall.2.1,
      hall.2.2, hd, if_true, if_false, Bool.false_eq_true, List.map_cons, List.map_nil, hb, hc]
    rw [hcand fun t => a :: b :: c :: d :: t]
    simp [firstSome, hb, hc]
  · simp at hl3

theorem delim_not_digit {d : Char} (h : d = '.' ∨ d = '-' ∨ d = '_') :
    isDigitChar d = false := by
  rcases h with h | h | h <;> subst h <;> decide

theorem delim_any {d : Char} (h : d = '.' ∨ d = '-' ∨ d = '_') :
    isAnyDelimChar d = true := by
  rcases h with h | h | h <;> subst h <;> decide

theorem delim_norm {d : Char} (h : d = '.' ∨ d = '-' ∨ d = '_') :
    normChar d = '.' := by
  rcases h with h | h | h <;> subst h <;> decide

theorem dotNotDigit : ∀ c, isDigitChar c = true → isDotChar c = false :=
  fun _ hc => beq_false_of_digit hc (by decide)

theorem dashNotDigit : ∀ c, isDigitChar c = true → isDashChar c = false :=
  fun _ hc => beq_false_of_digit hc (by decide)

theorem underNotDigit : ∀ c, isDigitChar c = true → isUnderChar c = false :=
  fun _ hc => beq_false_of_digit hc (by decide)

/-- Leftmost-first match of one whole quad alternative at the head of the
input: each step takes its greedy first candidate, consuming exactly the
four octet runs and three delimiters. -/
theorem matchQuad_some (D : Char → Bool) {o1 o2 o3 o4 : List Char}
    (h1 : isOctetRun o1) (h2 : isOctetRun o2) (h3 : isOctetRun o3) (h4 : isOctetRun o4)
    {d1 d2 d3 : Char} (hd1 : isDigitChar d1 = false) (hd2 : isDigitChar d2 = false)
    (hd3 : isDigitChar d3 = false) (hD1 : D d1 = true) (hD2 : D d2 = true)
    (hD3 : D d3 = true) {suffix : List Char} (hsuf : headIsDigit suffix = false) :
    matchOcts D 3 (o1 ++ d1 :: (o2 ++ d2 :: (o3 ++ d3 :: (o4 ++ suffix)))) =
      some (o1 ++ d1 :: (o2 ++ d2 :: (o3 ++ d3 :: o4))) :=
  matchOcts_succ_some D 2 h1 hd1 hD1
    (matchOcts_succ_some D 1 h2 hd2 hD2
      (matchOcts_succ_some D 0 h3 hd3 hD3 (matchOcts_zero D h4 hsuf)))

/-- A quad alternative whose delimiter class rejects one of the three
delimiters of the pattern fails at the head of the input. -/
theorem matchQuad_none (D : Char → Bool)
    (hDdig : ∀ c, isDigitChar c = true → D c = false) {o1 o2 o3 o4 : List Char}
    (h1 : isOctetRun o1) (h2 : isOctetRun o2) (h3 : isOctetRun o3)
    {d1 d2 d3 : Char} (hd1 : isDigitChar d1 = false) (hd2 : isDigitChar d2 = false)
    (hd3 : isDigitChar d3 = false) {suffix : List Char}
    (hnot : ¬(D d1 = true ∧ D d2 = true ∧ D d3 = true)) :
    matchOcts D 3 (o1 ++ d1 :: (o2 ++ d2 :: (o3 ++ d3 :: (o4 ++ suffix)))) = none := by
  by_cases hD1 : D d1 = true
  · by_cases hD2 : D d2 = true
    · by_cases hD3 : D d3 = true
      · exact absurd ⟨hD1, hD2, hD3⟩ hnot
      · exact matchOcts_succ_none D hDdig 2 h1.1 h1.2.2 hd1 (Or.inr
          (matchOcts_succ_none D hDdig 1 h2.1 h2.2.2 hd2 (Or.inr
            (matchOcts_succ_none D hDdig 0 h3.1 h3.2.2 hd3
              (Or.inl (Bool.of_not_eq_true hD3))))))
    · exact matchOcts_succ_none D hDdig 2 h1.1 h1.2.2 hd1 (Or.inr
        (matchOcts_succ_none D hDdig 1 h2.1 h2.2.2 hd2
          (Or.inl (Bool.of_not_eq_true hD2))))
  · exact matchOcts_succ_none D hDdig 2 h1.1 h1.2.2 hd1
      (Or.inl (Bool.of_not_eq_true hD1))

/-- The full alternation at the head of the input matches exactly the quad
pattern, whichever of the four alternatives fires first. -/
theorem matchAt_quad {o1 o2 o3 o4 : List Char}
    (h1 : isOctetRun o1) (h2 : isOctetRun o2) (h3 : isOctetRun o3) (h4 : isOctetRun o4)
    {d1 d2 d3 : Char} (m1 : d1 = '.' ∨ d1 = '-' ∨ d1 = '_')
    (m2 : d2 = '.' ∨ d2 = '-' ∨ d2 = '_') (m3 : d3 = '.' ∨ d3 = '-' ∨ d3 = '_')
    {suffix : List Char} (hsuf : headIsDigit suffix = false) :
    matchAt (o1 ++ d1 :: (o2 ++ d2 :: (o3 ++ d3 :: (o4 ++ suffix)))) =
      some (o1 ++ d1 :: (o2 ++ d2 :: (o3 ++ d3 :: o4))) := by
  have hd1 := delim_not_digit m1
  have hd2 := delim_not_digit m2
  have hd3 := delim_not_digit m3
  unfold matchAt
  by_cases c1 : isDotChar d1 = true ∧ isDotChar d2 = true ∧ isDotChar d3 = true
  · rw [matchQuad_some isDotChar h1 h2 h3 h4 hd1 hd2 hd3 c1.1 c1.2.1 c1.2.2 hsuf]
  · rw [matchQuad_none isDotChar dotNotDigit h1 h2 h3 hd1 hd2 hd3 c1]
    by_cases c2 : isDashChar d1 = true ∧ isDashChar d2 = true ∧ isDashChar d3 = true
    · rw [matchQuad_some isDashChar h1 h2 h3 h4 hd1 hd2 hd3 c2.1 c2.2.1 c2.2.2 hsuf]
    · rw [matchQuad_none isDashChar dashNotDigit h1 h2 h3 hd1 hd2 hd3 c2]
      by_cases c3 : isUnderChar d1 = true ∧ isUnderChar d2 = true ∧ isUnderChar d3 = true
      · rw [matchQuad_some isUnderChar h1 h2 h3 h4 hd1 hd2 hd3 c3.1 c3.2.1 c3.2.2 hsuf]
      · rw [matchQuad_none isUnderChar underNotDigit h1 h2 h3 hd1 hd2 hd3 c3]
        exact matchQuad_some isAnyDelimChar h1 h2 h3 h4 hd1 hd2 hd3
          (delim_any m1) (delim_any m2) (delim_any m3) hsuf

/-- The scan finds the quad pattern at position zero when the hostname
starts with it. -/
theorem findMatch_quad {o1 o2 o3 o4 : List Char}
    (h1 : isOctetRun o1) (h2 : isOctetRun o2) (h3 : isOctetRun o3) (h4 : isOctetRun o4)
    {d1 d2 d3 : Char} (m1 : d1 = '.' ∨ d1 = '-' ∨ d1 = '_')
    (m2 : d2 = '.' ∨ d2 = '-' ∨ d2 = '_') (m3 : d3 = '.' ∨ d3 = '-' ∨ d3 = '_')
    {suffix : List Char} (hsuf : headIsDigit suffix = false) :
    findMatchAux ((o1 ++ d1 :: (o2 ++ d2 :: (o3 ++ d3 :: o4))) ++ suffix) =
      some (o1 ++ d1 :: (o2 ++ d2 :: (o3 ++ d3 :: o4))) := by
  have hm := matchAt_quad h1 h2 h3 h4 m1 m2 m3 hsuf
  obtain ⟨x, t, rfl⟩ : ∃ x t, o1 = x :: t := by
    rcases o1 with _ | ⟨x, t⟩
    · exact absurd h1.2.1 (by simp)
    · exact ⟨x, t, rfl⟩
  simp only [List.cons_append, List.append_assoc] at hm ⊢
  simp only [findMatchAux]
  rw [hm]

theorem outcome_eq_of_find {h : String} {m : List Char}
    (hfind : findMatchAux h.data = some m) :
    parseIPAddressOutcome h =
      match goParseIPv4Chars (m.map normChar) with
      | some q => .found (String.mk (renderIPv4Chars q))
      | none => .addressInvalid := by
  unfold parseIPAddressOutcome
  rw [hfind]

theorem outcome_eq_of_none {h : String} (hfind : findMatchAux h.data = none) :
    parseIPAddressOutcome h = .addressNotFound := by
  unfold parseIPAddressOutcome
  rw [hfind]

theorem pattern_map_norm {o1 o2 o3 o4 : List Char}
    (a1 : o1.all isDigitChar = true) (a2 : o2.all isDigitChar = true)
    (a3 : o3.all isDigitChar = true) (a4 : o4.all isDigitChar = true)
    {d1 d2 d3 : Char} (m1 : d1 = '.' ∨ d1 = '-' ∨ d1 = '_')
    (m2 : d2 = '.' ∨ d2 = '-' ∨ d2 = '_') (m3 : d3 = '.' ∨ d3 = '-' ∨ d3 = '_') :
    (o1 ++ d1 :: (o2 ++ d2 :: (o3 ++ d3 :: o4))).map normChar =
      o1 ++ '.' :: (o2 ++ '.' :: (o3 ++ '.' :: o4)) := by
  simp only [List.map_append, List.map_cons, map_normChar_digits a1,
    map_normChar_digits a2, map_normChar_digits a3, map_normChar_digits a4,
    delim_norm m1, delim_norm m2, delim_norm m3]

/-- Behaviour of the embedded-pattern resolver on a hostname that starts
with a dotted-quad pattern (octet values up to three digits, delimiters
drawn from the three supported classes, rest of the hostname not starting
with a digit): the pattern is matched, delimiter-normalized and validated,
yielding the canonical address for in-range octets and the invalid-address
diagnostic otherwise. -/
theorem parseIPAddressOutcome_quad {a b c d : Nat}
    (ha : a ≤ 999) (hb : b ≤ 999) (hc : c ≤ 999) (hd : d ≤ 999)
    {d1 d2 d3 : Char} (m1 : d1 = '.' ∨ d1 = '-' ∨ d1 = '_')
    (m2 : d2 = '.' ∨ d2 = '-' ∨ d2 = '_') (m3 : d3 = '.' ∨ d3 = '-' ∨ d3 = '_')
    {suffix : List Char} (hsuf : headIsDigit suffix = false) :
    parseIPAddressOutcome (String.mk (patternChars a b c d d1 d2 d3 ++ suffix)) =
      if 255 < a ∨ 255 < b ∨ 255 < c ∨ 255 < d then .addressInvalid
      else .found (String.mk (renderIPv4Chars ⟨a, b, c, d⟩)) := by
  have hfind : findMatchAux (String.mk (patternChars a b c d d1 d2 d3 ++ suffix)).data =
      some (patternChars a b c d d1 d2 d3) :=
    findMatch_quad (octChars_isOctetRun ha) (octChars_isOctetRun hb)
      (octChars_isOctetRun hc) (octChars_isOctetRun hd) m1 m2 m3 hsuf
  rw [outcome_eq_of_find hfind]
  rw [show (patternChars a b c d d1 d2 d3).map normChar =
      octChars a ++ ('.' :: (octChars b ++ ('.' :: (octChars c ++ ('.' :: octChars d)))))
    from pattern_map_norm (octChars_isOctetRun ha).1 (octChars_isOctetRun hb).1
      (octChars_isOctetRun hc).1 (octChars_isOctetRun hd).1 m1 m2 m3]
  rw [goParseIPv4_octs ha hb hc hd]
  by_cases hbig : 255 < a ∨ 255 < b ∨ 255 < c ∨ 255 < d
  · rw [if_pos hbig, if_pos hbig]
  · rw [if_neg hbig, if_neg hbig]

/-! ## The claims -/

/-- C4: the resolver reports the not-found diagnostic exactly when the
regex finds no match, the invalid diagnostic exactly when the leftmost
match fails IPv4 validation, returns the empty string in both error cases,
and a matched four-octet pattern with any octet above 255 always lands in
the invalid case. -/
theorem claim_C4_error_taxonomy :
    (∀ h : String,
      parseIPAddressOutcome h = .addressNotFound ↔ findMatchAux h.data = none) ∧
    (∀ h : String,
      parseIPAddressOutcome h = .addressInvalid ↔
        ∃ m, findMatchAux h.data = some m ∧ goParseIPv4Chars (m.map normChar) = none) ∧
    (∀ h : String,
      parseIPAddressOutcome h = .addressNotFound ∨
        parseIPAddressOutcome h = .addressInvalid →
      parseIPAddressFromHostname h = "") ∧
    (∀ (a b c d : Nat) (d1 d2 d3 : Char) (suffix : List Char),
      a ≤ 999 → b ≤ 999 → c ≤ 999 → d ≤ 999 →
      (d1 = '.' ∨ d1 = '-' ∨ d1 = '_') → (d2 = '.' ∨ d2 = '-' ∨ d2 = '_') →
      (d3 = '.' ∨ d3 = '-' ∨ d3 = '_') → headIsDigit suffix = false →
      (255 < a ∨ 255 < b ∨ 255 < c ∨ 255 < d) →
      parseIPAddressOutcome (String.mk (patternChars a b c d d1 d2 d3 ++ suffix)) =
        .addressInvalid) := by
  refine ⟨fun h => ?_, fun h => ?_, fun h hcase => ?_, ?_⟩
  · rcases hf : findMatchAux h.data with _ | m
    · rw [outcome_eq_of_none hf]
      simp
    · rw [outcome_eq_of_find hf]
      rcases hg : goParseIPv4Chars (m.map normChar) with _ | q <;> simp [hf]
  · rcases hf : findMatchAux h.data with _ | m
    · rw [outcome_eq_of_none hf]
      simp [hf]
    · rw [outcome_eq_of_find hf]
      rcases hg : goParseIPv4Chars (m.map normChar) with _ | q <;> simp [hf, hg]
  · unfold parseIPAddressFromHostname
    rcases hcase with hc | hc <;> rw [hc]
  · intro a b c d d1 d2 d3 suffix ha hb hc hd m1 m2 m3 hsuf hbig
    rw [parseIPAddressOutcome_quad ha hb hc hd m1 m2 m3 hsuf, if_pos hbig]

theorem claim_C4_witness :
    String.mk (patternChars 999 1 1 1 '-' '-' '-' ++ ".example.com".data) =
      "999-1-1-1.example.com" ∧
    parseIPAddressOutcome "999-1-1-1.example.com" = .addressInvalid := by
  have heq : String.mk (patternChars 999 1 1 1 '-' '-' '-' ++ ".example.com".data) =
      "999-1-1-1.example.com" := by decide
  have h := claim_C4_error_taxonomy.2.2.2 999 1 1 1 '-' '-' '-' ".example.com".data
    (by decide) (by decide) (by decide) (by decide)
    (Or.inr (Or.inl rfl)) (Or.inr (Or.inl rfl)) (Or.inr (Or.inl rfl))
    (by decide) (Or.inl (by decide))
  rw [heq] at h
  exact ⟨heq, h⟩

/-- C5 counterexample: the hostname `999-1-1-1.1.1.1.1` contains the valid
dotted-quad pattern `1.1.1.1`, yet the resolver returns the empty string
(the leftmost syntactic match `999-1-1-1` fails validation), which is not
the normalization of any contained pattern and does not round-trip through
IPv4 parsing. -/
theorem claim_C5_counterexample :
    occursIn "1.1.1.1".data "999-1-1-1.1.1.1.1".data = true ∧
    goParseIPv4Chars "1.1.1.1".data = some ⟨1, 1, 1, 1⟩ ∧
    parseIPAddressFromHostname "999-1-1-1.1.1.1.1" = "" ∧
    goParseIPv4Chars (parseIPAddressFromHostname "999-1-1-1.1.1.1.1").data = none := by
  decide

/-- C5 (amended): whenever the leftmost-first regex match of a hostname
validates as IPv4, the resolver returns its canonical dotted rendering and
that result round-trips through IPv4 parsing; in particular a hostname
starting with a valid dotted-quad pattern (delimiters from the three
supported classes, octets at most 255, rest not starting with a digit)
resolves to the canonical dotted form of that pattern, which round-trips. -/
theorem claim_C5_normalize_roundtrip :
    (∀ (h : String) (m : List Char) (q : IPv4Addr),
      findMatchAux h.data = some m →
      goParseIPv4Chars (m.map normChar) = some q →
      parseIPAddressFromHostname h = String.mk (renderIPv4Chars q) ∧
      goParseIPv4Chars (renderIPv4Chars q) = some q) ∧
    (∀ (a b c d : Nat) (d1 d2 d3 : Char) (suffix : List Char),
      a ≤ 255 → b ≤ 255 → c ≤ 255 → d ≤ 255 →
      (d1 = '.' ∨ d1 = '-' ∨ d1 = '_') → (d2 = '.' ∨ d2 = '-' ∨ d2 = '_') →
      (d3 = '.' ∨ d3 = '-' ∨ d3 = '_') → headIsDigit suffix = false →
      parseIPAddressFromHostname (String.mk (patternChars a b c d d1 d2 d3 ++ suffix)) =
        String.mk (renderIPv4Chars ⟨a, b, c, d⟩) ∧
      goParseIPv4Chars (renderIPv4Chars ⟨a, b, c, d⟩) = some ⟨a, b, c, d⟩) := by
  constructor
  · intro h m q hf hg
    constructor
    · unfold parseIPAddressFromHostname
      rw [outcome_eq_of_find hf, hg]
    · obtain ⟨l1, l2, l3, l4⟩ := goParseIPv4_le hg
      exact goParseIPv4_render l1 l2 l3 l4
  · intro a b c d d1 d2 d3 suffix ha hb hc hd m1 m2 m3 hsuf
    have houtcome := parseIPAddressOutcome_quad (show a ≤ 999 by omega)
      (show b ≤ 999 by omega) (show c ≤ 999 by omega) (show d ≤ 999 by omega)
      m1 m2 m3 hsuf
    rw [if_neg (by omega)] at houtcome
    constructor
    · unfold parseIPAddressFromHostname
      rw [houtcome]
    · exact goParseIPv4_render ha hb hc hd

theorem claim_C5_witness :
    String.mk (patternChars 203 0 113 5 '-' '-' '-' ++ ".lb.example.com".data) =
      "203-0-113-5.lb.example.com" ∧
    parseIPAddressFromHostname "203-0-113-5.lb.example.com" = "203.0.113.5" ∧
    goParseIPv4Chars "203.0.113.5".data = some ⟨203, 0, 113, 5⟩ := by
  have heq : String.mk (patternChars 203 0 113 5 '-' '-' '-' ++ ".lb.example.com".data) =
      "203-0-113-5.lb.example.com" := by decide
  have hrender : String.mk (renderIPv4Chars ⟨203, 0, 113, 5⟩) = "203.0.113.5" := by decide
  have hrdata : renderIPv4Chars ⟨203, 0, 113, 5⟩ = "203.0.113.5".data := by decide
  have h := claim_C5_normalize_roundtrip.2 203 0 113 5 '-' '-' '-' ".lb.example.com".data
    (by decide) (by decide) (by decide) (by decide)
    (Or.inr (Or.inl rfl)) (Or.inr (Or.inl rfl)) (Or.inr (Or.inl rfl)) (by decide)
  rw [heq, hrender, hrdata] at h
  exact ⟨heq, h.1, h.2⟩

/-- C1 (code defect): on the spec's failing input `999-1-1-1.example.com`
resolution fails with the empty string, yet the handler still builds the
document — whose endpoint-slice carries the empty address — and still
submits it, answering 200 with an empty `ipAddress` when the submission
succeeds, instead of short-circuiting with an error. -/
theorem claim_C1_no_empty_address_guard :
    parseIPAddressFromHostname "999-1-1-1.example.com" = "" ∧
    (handlerDocument "999-1-1-1.example.com").spec.endpointSlices.endpoints =
      [{ addresses := [""] }] ∧
    handleRequest "999-1-1-1.example.com" (fun _ => none) =
      { status := 200, contentType := "application/json",
        body := .jsonPair "" "999-1-1-1.example.com" } := by
  decide

/-- C2: in every generated document the service-backend name inside the
ingress path equals the service sub-spec's own name (both derived from the
same service-friendly address), and two requests resolving to the same
address yield documents with identical resource names. -/
theorem claim_C2_consistent_naming :
    (∀ ipAddress hostname svcFriendlyIp : String,
      (createCRDDocument ipAddress hostname svcFriendlyIp).spec.ingresses.rules =
        [{ host := hostname
           http := { paths := [{
             path := "/"
             pathType := "ImplementationSpecific"
             backend := { service := {
               name := (createCRDDocument ipAddress hostname svcFriendlyIp).spec.services.name
               port := { number := 80 } } } }] } }] ∧
      (createCRDDocument ipAddress hostname svcFriendlyIp).spec.services.name =
        "icanhazlb-" ++ svcFriendlyIp ++ "-svc") ∧
    (∀ h1 h2 : String, parseIPAddressFromHostname h1 = parseIPAddressFromHostname h2 →
      documentNames (handlerDocumentOf h1) = documentNames (handlerDocumentOf h2)) := by
  refine ⟨fun ip hn sfi => ⟨rfl, rfl⟩, fun h1 h2 h => ?_⟩
  simp only [handlerDocumentOf, createCRDDocument, documentNames, h,
    List.map_cons, List.map_nil]

theorem claim_C2_witness :
    documentNames (handlerDocumentOf "1.2.3.4") =
      documentNames (handlerDocumentOf "1-2-3-4") :=
  claim_C2_consistent_naming.2 "1.2.3.4" "1-2-3-4" (by decide)

/-- C3 counterexample: for the Host value `203_0_113_5.example.com` the
extracted hostname keeps its underscores, but the generated ingress rule
carries the sanitized hostname `203-0-113-5.example.com`, so the rule host
differs from the hostname as extracted from the request. -/
theorem claim_C3_host_counterexample :
    extractHostnameFromRequest "203_0_113_5.example.com" = "203_0_113_5.example.com" ∧
    parseIPAddressFromHostname "203_0_113_5.example.com" = "203.0.113.5" ∧
    (handlerDocument "203_0_113_5.example.com").spec.ingresses.rules.map (fun r => r.host) =
      ["203-0-113-5.example.com"] ∧
    ("203-0-113-5.example.com" : String) ≠ "203_0_113_5.example.com" := by
  decide

/-- C3 (amended): every generated document has exactly one ingress rule and
one path with the fixed `/`, `ImplementationSpecific`, port-80 backend on
the derived service name and the fixed upstream-vhost annotation; the rule
host is the extracted hostname with underscores replaced by dashes (hence
equal to the extracted hostname whenever it contains no underscore), while
the `main.go` variant uses its hostname argument unchanged. -/
theorem claim_C3_ingress_shape (host : String) :
    ((handlerDocument host).spec.ingresses.rules =
      [{ host := underscoreToDash (extractHostnameFromRequest host)
         http := { paths := [{
           path := "/"
           pathType := "ImplementationSpecific"
           backend := { service := {
             name := "icanhazlb-" ++
               dotToDash (parseIPAddressFromHostname (extractHostnameFromRequest host)) ++ "-svc"
             port := { number := 80 } } } }] } }]) ∧
    (handlerDocument host).spec.ingresses.annotations =
      [("nginx.ingress.kubernetes.io/upstream-vhost", "retro.adrenlinerush.net")] ∧
    (∀ ip hn : String, (createCRDDocumentMain ip hn).spec.ingresses.rules =
      [{ host := hn
         http := { paths := [{
           path := "/"
           pathType := "ImplementationSpecific"
           backend := { service := {
             name := "icanhazlb-" ++ ip ++ "-svc"
             port := { number := 80 } } } }] } }]) :=
  ⟨rfl, rfl, fun _ _ => rfl⟩

/-- C6: on input host `203-0-113-5.lb.example.com` the resolver yields
`203.0.113.5`, the submitted resource name is the service-friendly variant
`icanhazlb-203-0-113-5`, and the response holds the resolved pair. -/
theorem claim_C6_scenario_one :
    parseIPAddressFromHostname "203-0-113-5.lb.example.com" = "203.0.113.5" ∧
    (handlerDocument "203-0-113-5.lb.example.com").name = "icanhazlb-203-0-113-5" ∧
    handleRequest "203-0-113-5.lb.example.com" (fun _ => none) =
      { status := 200, contentType := "application/json",
        body := .jsonPair "203.0.113.5" "203-0-113-5.lb.example.com" } := by
  decide

/-- C7: document construction is a pure function of the resolved pair —
equal `(ipAddress, hostname)` inputs give byte-identical documents, hence
identical resource names and label values. -/
theorem claim_C7_deterministic_construction (ip hn ip' hn' : String)
    (hip : ip = ip') (hhn : hn = hn') :
    createCRDDocument ip (underscoreToDash hn) (dotToDash ip) =
      createCRDDocument ip' (underscoreToDash hn') (dotToDash ip') ∧
    documentNames (createCRDDocument ip (underscoreToDash hn) (dotToDash ip)) =
      documentNames (createCRDDocument ip' (underscoreToDash hn') (dotToDash ip')) ∧
    documentLabels (createCRDDocument ip (underscoreToDash hn) (dotToDash ip)) =
      documentLabels (createCRDDocument ip' (underscoreToDash hn') (dotToDash ip')) := by
  subst hip
  subst hhn
  exact ⟨rfl, rfl, rfl⟩

theorem claim_C7_witness :
    createCRDDocument "203.0.113.5" (underscoreToDash "203-0-113-5.lb.example.com")
        (dotToDash "203.0.113.5") =
      createCRDDocument "203.0.113.5" (underscoreToDash "203-0-113-5.lb.example.com")
        (dotToDash "203.0.113.5") :=
  (claim_C7_deterministic_construction "203.0.113.5" "203-0-113-5.lb.example.com"
    "203.0.113.5" "203-0-113-5.lb.example.com" rfl rfl).1

/-- C8: per request, a successful submission is answered with status 200,
content type `application/json` and the resolved pair as JSON body; a
failed submission is answered with status 500 and a plain-text error
message (the handler is a total function either way). -/
theorem claim_C8_response_contract (host : String)
    (submit : IcanhazlbService → Option String) :
    (submit (handlerDocument host) = none →
      handleRequest host submit =
        { status := 200, contentType := "application/json",
          body := .jsonPair (parseIPAddressFromHostname (extractHostnameFromRequest host))
            (extractHostnameFromRequest host) }) ∧
    (∀ e, submit (handlerDocument host) = some e →
      handleRequest host submit =
        { status := 500, contentType := "text/plain; charset=utf-8",
          body := .errorText ("Failed to create CRD: " ++ e) }) := by
  constructor
  · intro h
    simp only [handleRequest, h]
  · intro e h
    simp only [handleRequest, h]

theorem claim_C8_witness :
    handleRequest "203-0-113-5.lb.example.com" (fun _ => none) =
      { status := 200, contentType := "application/json",
        body := .jsonPair "203.0.113.5" "203-0-113-5.lb.example.com" } ∧
    handleRequest "203-0-113-5.lb.example.com" (fun _ => some "connection refused") =
      { status := 500, contentType := "text/plain; charset=utf-8",
        body := .errorText "Failed to create CRD: connection refused" } :=
  ⟨(claim_C8_response_contract "203-0-113-5.lb.example.com" (fun _ => none)).1 rfl,
    (claim_C8_response_contract "203-0-113-5.lb.example.com"
      (fun _ => some "connection refused")).2 "connection refused" rfl⟩

/-- C9: every generated document reproduces the fixed policy values
verbatim: endpoint-slice `IPv4` address type with the single `http:80`
port, `ClusterIP` service with `IPv4` families and the same port, and the
`kubernetes.io/service-name` label on both set to the service name. -/
theorem claim_C9_fixed_policy_values (ipAddress hostname svcFriendlyIp : String) :
    (createCRDDocument ipAddress hostname svcFriendlyIp).spec.endpointSlices.addressType =
      "IPv4" ∧
    (createCRDDocument ipAddress hostname svcFriendlyIp).spec.endpointSlices.ports =
      [{ name := "http", port := 80 }] ∧
    (createCRDDocument ipAddress hostname svcFriendlyIp).spec.services.type = "ClusterIP" ∧
    (createCRDDocument ipAddress hostname svcFriendlyIp).spec.services.ipFamilies =
      ["IPv4"] ∧
    (createCRDDocument ipAddress hostname svcFriendlyIp).spec.services.ports =
      [{ name := "http", port := 80 }] ∧
    (createCRDDocument ipAddress hostname svcFriendlyIp).spec.endpointSlices.labels =
      [("kubernetes.io/service-name",
        (createCRDDocument ipAddress hostname svcFriendlyIp).spec.services.name)] ∧
    (createCRDDocument ipAddress hostname svcFriendlyIp).spec.services.labels =
      [("kubernetes.io/service-name",
        (createCRDDocument ipAddress hostname svcFriendlyIp).spec.services.name)] :=
  ⟨rfl, rfl, rfl, rfl, rfl, rfl, rfl⟩

/-- C10: the leftmost regex match may start inside a digit run longer than
three digits: `1234-5-6-7.example.com` matches `234-5-6-7` and resolves to
the truncated `234.5.6.7` instead of failing. -/
theorem claim_C10_truncated_match :
    findMatchAux "1234-5-6-7.example.com".data = some "234-5-6-7".data ∧
    parseIPAddressFromHostname "1234-5-6-7.example.com" = "234.5.6.7" := by
  decide

end Icanhazlb
